import Mathlib

set_option autoImplicit false

/-!
Verification development for the InteliCAD backend and its Fusion-360
executor.  The Python source is shallowly embedded: every pure
transformation becomes a Lean function on a JSON-like value type, the
in-memory job registry becomes an insertion-ordered association list, and
each LLM network call is abstracted into a parameter holding the parsed
reply of that call (the LLM is an external text-completion collaborator,
so its replies are universally quantified).  Numeric JSON literals are
kept as their source text: no property proved here inspects numeric
semantics.
-/

namespace InteliCAD

/-- JSON-like values modelling the Python dict/list/str/number/bool/None
data that flows through the backend (jobs, operations, LLM replies). -/
inductive JVal : Type where
  | null : JVal
  | bool (b : Bool) : JVal
  | num (lit : String) : JVal
  | str (s : String) : JVal
  | arr (elems : List JVal) : JVal
  | obj (fields : List (String × JVal)) : JVal

/-- Lookup in an insertion-ordered association list, modelling
Python dict indexing (keys are unique in every list built here). -/
def dictFind {α : Type} : List (String × α) → String → Option α
  | [], _ => none
  | (k, v) :: rest, key => if k = key then some v else dictFind rest key

/-- Python dict assignment `d[k] = v`: replaces the value in place when the
key exists, appends the pair otherwise. -/
def dictSet {α : Type} : List (String × α) → String → α → List (String × α)
  | [], key, v => [(key, v)]
  | (k, w) :: rest, key, v =>
    if k = key then (k, v) :: rest else (k, w) :: dictSet rest key v

/-- Python `d.get(key, default)` on a JSON value.  The modelled code only
calls `.get` on dict values; on any other value the Lean model answers the
default (Python would raise, a path never reached by the embedded code). -/
def JVal.get (v : JVal) (key : String) (dflt : JVal) : JVal :=
  match v with
  | .obj fields => (dictFind fields key).getD dflt
  | _ => dflt

/-- Python `key in d` membership test on a dict value. -/
def JVal.hasKey (v : JVal) (key : String) : Bool :=
  match v with
  | .obj fields => (dictFind fields key).isSome
  | _ => false

/-- Python dict assignment `v[key] = x` on a JSON value; assignment on a
non-dict raises in Python and is never reached by the embedded code, so the
model leaves such values unchanged. -/
def JVal.set (v : JVal) (key : String) (x : JVal) : JVal :=
  match v with
  | .obj fields => .obj (dictSet fields key x)
  | other => other

/-- The string carried by a JSON value, empty for non-strings.  Used where
the source interpolates a value that is a string on every reached path. -/
def jstrOf : JVal → String
  | .str s => s
  | _ => ""

/-- The element list of a JSON array, empty for non-arrays.  The source
iterates only over values that are lists on every reached path. -/
def jarrOf : JVal → List JVal
  | .arr elems => elems
  | _ => []

/-- Python truthiness of a JSON value.  A numeric literal counts as falsy
exactly when its text carries no nonzero digit (such as 0, 0.0, -0); the
embedded code never branches on numeric truthiness. -/
def pyTruthy : JVal → Bool
  | .null => false
  | .bool b => b
  | .num lit => !lit.data.all (fun c => c = '0' || c = '.' || c = '-' || c = '+')
  | .str s => s != ""
  | .arr elems => !elems.isEmpty
  | .obj fields => !fields.isEmpty

/-- Python `==` between an arbitrary value and a string literal: true only
for the equal string. -/
def jeqStr (v : JVal) (s : String) : Bool :=
  match v with
  | .str t => t == s
  | _ => false

/-- Case-sensitive test that `p` is an initial segment of the text. -/
def prefixAt : List Char → List Char → Bool
  | [], _ => true
  | _ :: _, [] => false
  | p :: ps, c :: cs => p == c && prefixAt ps cs

/-- Python substring test `sub in s` over character lists. -/
def hasSub (sub : List Char) : List Char → Bool
  | [] => sub.isEmpty
  | c :: cs => prefixAt sub (c :: cs) || hasSub sub cs

/-- Python `sub in s` on strings. -/
def pyIn (sub s : String) : Bool := hasSub sub.data s.data

/-- Python `str.lower()`; the classification keywords are ASCII. -/
def lowerStr (s : String) : String := String.mk (s.data.map Char.toLower)

/-! ## Phase-2 post-generation safety filter (fastUpload.py lines 432-462) -/

/-- The load-bearing part-type keywords of the Phase-2 post-generation
filter (fastUpload.py line 443). -/
def loadKeywords : List String := ["hanger", "bracket", "clip", "mount", "hook"]

/-- Operation types forbidden on load-bearing parts
(fastUpload.py line 444). -/
def forbiddenLoadTypes : List String :=
  ["strategic_holes", "ventilation", "fillet_all_edges"]

/-- First removal rule of the filter loop (fastUpload.py lines 442-446): a
load-bearing keyword occurs in the part type and the operation type is one
of the three forbidden types. -/
def removedByLoadRule (part_type : String) (op : JVal) : Bool :=
  (loadKeywords.any fun kw => pyIn kw part_type) &&
    (forbiddenLoadTypes.any fun t => jeqStr (op.get "type" (.str "")) t)

/-- Second removal rule of the filter loop (fastUpload.py lines 448-455):
an enclosure or housing part gets a ventilation operation although the use
case mentions neither electronics nor cooling. -/
def removedByEnclosureRule (part_type use_case : String) (op : JVal) : Bool :=
  (pyIn "enclosure" part_type || pyIn "housing" part_type) &&
    jeqStr (op.get "type" (.str "")) "ventilation" &&
    !(pyIn "electronic" use_case || pyIn "cooling" use_case)

/-- The filter loop of `phase2_generate_operations` (fastUpload.py lines
439-457): one pass over the generated operations, returning the kept
operations and the recorded removal diagnostics, in order. -/
def filterPass (part_type use_case : String) : List JVal → List JVal × List String
  | [] => ([], [])
  | op :: rest =>
    let tail := filterPass part_type use_case rest
    if removedByLoadRule part_type op then
      (tail.1, (jstrOf (op.get "type" (.str "")) ++
        " (inappropriate for load-bearing " ++ part_type ++ ")") :: tail.2)
    else if removedByEnclosureRule part_type use_case op then
      (tail.1, (jstrOf (op.get "type" (.str "")) ++ " (no cooling needed)") :: tail.2)
    else
      (op :: tail.1, tail.2)

/-- Deterministic residue of `phase2_generate_operations` (fastUpload.py
lines 287-473).  The two LLM calls are abstracted into `llm`, the parsed
reply of the second (JSON-generation) call; the first (thinking) call only
feeds the prompt of the second.  When model analysis data is present and
truthy, the post-generation filter rewrites the operation list of the
reply; otherwise the reply passes through unchanged. -/
def phase2_generate_operations (design_plan model_analysis llm : JVal) : JVal :=
  if pyTruthy model_analysis then
    let part_type :=
      lowerStr (jstrOf ((design_plan.get "design_intent" (.obj [])).get "part_type" (.str "")))
    let use_case :=
      lowerStr (jstrOf ((design_plan.get "design_intent" (.obj [])).get "use_case_description" (.str "")))
    let operations := jarrOf (llm.get "operations" (.arr []))
    llm.set "operations" (.arr (filterPass part_type use_case operations).1)
  else
    llm

/-! ### Association list and filter lemmas -/

theorem dictFind_dictSet_self {α : Type} (l : List (String × α)) (k : String) (v : α) :
    dictFind (dictSet l k v) k = some v := by
  induction l with
  | nil => simp [dictFind, dictSet]
  | cons kv rest ih =>
    by_cases h : kv.1 = k
    · simp [dictFind, dictSet, h]
    · simpa [dictFind, dictSet, h] using ih

theorem dictFind_dictSet_ne {α : Type} (l : List (String × α)) (k k' : String) (v : α)
    (h : k' ≠ k) : dictFind (dictSet l k v) k' = dictFind l k' := by
  induction l with
  | nil => simp [dictFind, dictSet, Ne.symm h]
  | cons kv rest ih =>
    rcases kv with ⟨k1, w⟩
    by_cases hk : k1 = k
    · subst hk
      simp [dictFind, dictSet, Ne.symm h]
    · by_cases hk' : k1 = k' <;> simp [dictFind, dictSet, hk, hk', ih, h]

theorem mem_dictSet {α : Type} (l : List (String × α)) (k : String) (v : α)
    (kv : String × α) (h : kv ∈ dictSet l k v) : kv ∈ l ∨ kv = (k, v) := by
  induction l with
  | nil => simpa [dictSet] using h
  | cons hd rest ih =>
    rcases hd with ⟨k1, w⟩
    by_cases hk : k1 = k
    · subst hk
      have h' : kv = (k1, v) ∨ kv ∈ rest := by simpa [dictSet] using h
      rcases h' with h' | h'
      · exact Or.inr h'
      · exact Or.inl (List.mem_cons_of_mem _ h')
    · simp only [dictSet, if_neg hk, List.mem_cons] at h
      rcases h with h | h
      · exact Or.inl (by simp [h])
      · rcases ih h with h' | h'
        · exact Or.inl (List.mem_cons_of_mem _ h')
        · exact Or.inr h'

theorem dictFind_mem {α : Type} (l : List (String × α)) (k : String) (v : α)
    (h : dictFind l k = some v) : (k, v) ∈ l := by
  induction l with
  | nil => simp [dictFind] at h
  | cons hd rest ih =>
    rcases hd with ⟨k1, w⟩
    by_cases hk : k1 = k
    · simp [dictFind, hk] at h
      simp [hk, h]
    · simp [dictFind, hk] at h
      exact List.mem_cons_of_mem _ (ih h)

/-- The kept side of a filter pass is a `List.filter` by the negation of
the two removal rules. -/
theorem filterPass_fst (part_type use_case : String) (ops : List JVal) :
    (filterPass part_type use_case ops).1 =
      ops.filter fun op =>
        !removedByLoadRule part_type op && !removedByEnclosureRule part_type use_case op := by
  induction ops with
  | nil => rfl
  | cons op rest ih =>
    by_cases h1 : removedByLoadRule part_type op
    · simp [filterPass, h1, List.filter, ih]
    · by_cases h2 : removedByEnclosureRule part_type use_case op <;>
        simp [filterPass, h1, h2, List.filter, ih]

/-- A pass over a list on which neither removal rule fires keeps every
operation and records no removal. -/
theorem filterPass_of_none_removed (part_type use_case : String) (ops : List JVal)
    (h : ∀ op ∈ ops, removedByLoadRule part_type op = false ∧
      removedByEnclosureRule part_type use_case op = false) :
    filterPass part_type use_case ops = (ops, []) := by
  induction ops with
  | nil => rfl
  | cons op rest ih =>
    have hop := h op (List.mem_cons_self op rest)
    have hrest := ih fun o ho => h o (List.mem_cons_of_mem _ ho)
    simp [filterPass, hop.1, hop.2, hrest]

/-- Setting a key on a dict value and reading it back yields the stored
value. -/
theorem get_set_obj_self (fields : List (String × JVal)) (key : String) (x dflt : JVal) :
    (JVal.set (.obj fields) key x).get key dflt = x := by
  simp [JVal.set, JVal.get, dictFind_dictSet_self]

/-- Claim C8: the operation safety filter is idempotent — for every
operation list and every part classification (with its use-case description
held fixed), applying the filter pass to its own output keeps the
already-filtered list unchanged and removes nothing further. -/
theorem C8_filter_idempotent (part_type use_case : String) (ops : List JVal) :
    filterPass part_type use_case (filterPass part_type use_case ops).1 =
      ((filterPass part_type use_case ops).1, []) := by
  apply filterPass_of_none_removed
  intro op hop
  rw [filterPass_fst] at hop
  have hpred := List.of_mem_filter hop
  simp only [Bool.and_eq_true, Bool.not_eq_true'] at hpred
  exact hpred

/-- Claim C4: in a model-data-informed (final) Phase-2 generation whose
design intent carries a part classification containing any of the keywords
hanger, bracket, clip, mount, hook, the filtered operation list contains no
operation of type strategic_holes, ventilation, or fillet_all_edges, even
when the raw LLM reply contained such operations — matching operations are
removed from the list itself, not merely flagged. -/
theorem C4_load_bearing_filter (design_plan model_analysis llm : JVal)
    (hma : pyTruthy model_analysis = true)
    (hkw : (loadKeywords.any fun kw => pyIn kw
      (lowerStr (jstrOf ((design_plan.get "design_intent" (.obj [])).get "part_type" (.str ""))))) = true) :
    ∀ op ∈ jarrOf ((phase2_generate_operations design_plan model_analysis llm).get "operations" (.arr [])),
      (forbiddenLoadTypes.any fun t => jeqStr (op.get "type" (.str "")) t) = false := by
  intro op hop
  cases llm with
  | obj fields =>
    simp only [phase2_generate_operations, if_pos hma, get_set_obj_self, jarrOf] at hop
    rw [filterPass_fst] at hop
    have hpred := List.of_mem_filter hop
    simp only [Bool.and_eq_true, Bool.not_eq_true'] at hpred
    have h1 := hpred.1
    cases hforb : (forbiddenLoadTypes.any fun t => jeqStr (op.get "type" (.str "")) t) with
    | false => rfl
    | true =>
      exfalso
      unfold removedByLoadRule at h1
      rw [hkw, hforb] at h1
      simp at h1
  | null => simp [phase2_generate_operations, if_pos hma, JVal.set, JVal.get, jarrOf] at hop
  | bool b => simp [phase2_generate_operations, if_pos hma, JVal.set, JVal.get, jarrOf] at hop
  | num n => simp [phase2_generate_operations, if_pos hma, JVal.set, JVal.get, jarrOf] at hop
  | str s => simp [phase2_generate_operations, if_pos hma, JVal.set, JVal.get, jarrOf] at hop
  | arr elems => simp [phase2_generate_operations, if_pos hma, JVal.set, JVal.get, jarrOf] at hop

/-- A bracket-classified design plan, as Phase 1 produces for a
load-bearing part. -/
def c4DesignPlan : JVal :=
  .obj [("design_intent", .obj [("part_type", .str "structural_bracket"),
    ("use_case_description", .str "wall bracket holding a shelf"),
    ("load_bearing", .bool true)])]

/-- Model analysis measurements reported by the CAD collaborator. -/
def c4ModelAnalysis : JVal :=
  .obj [("current_mass", .num "120.0"),
    ("bounding_box", .obj [("length", .num "50"), ("width", .num "20"),
      ("height", .num "10")])]

/-- A raw Phase-2 LLM reply that disobeys the prompt and proposes forbidden
perforation operations for the bracket. -/
def c4Llm : JVal :=
  .obj [("operations", .arr [
    .obj [("id", .str "op_001"), ("type", .str "shell_body"),
      ("params", .obj [("wall_thickness", .num "6.0")])],
    .obj [("id", .str "op_002"), ("type", .str "strategic_holes"),
      ("params", .obj [("hole_diameter", .num "5.0")])],
    .obj [("id", .str "op_003"), ("type", .str "ventilation"),
      ("params", .obj [("hole_size", .num "4.0")])]])]

/-- Witness for C4: a concrete bracket job whose raw LLM reply contains
strategic_holes and ventilation operations; the filtered list carries no
forbidden operation type. -/
theorem C4_witness :
    pyTruthy c4ModelAnalysis = true ∧
    (loadKeywords.any fun kw => pyIn kw
      (lowerStr (jstrOf ((c4DesignPlan.get "design_intent" (.obj [])).get "part_type" (.str ""))))) = true ∧
    ∀ op ∈ jarrOf ((phase2_generate_operations c4DesignPlan c4ModelAnalysis c4Llm).get "operations" (.arr [])),
      (forbiddenLoadTypes.any fun t => jeqStr (op.get "type" (.str "")) t) = false :=
  ⟨by decide, by decide,
    C4_load_bearing_filter c4DesignPlan c4ModelAnalysis c4Llm (by decide) (by decide)⟩

/-! ## Tolerant LLM reply parser (fastUpload.py lines 24-102) -/

/-- Case-insensitive character comparison, modelling re.IGNORECASE on the
ASCII reasoning-tag letters. -/
def lcEq (a b : Char) : Bool := a.toLower == b.toLower

/-- Case-insensitive initial-segment test. -/
def lcPrefixAt : List Char → List Char → Bool
  | [], _ => true
  | _ :: _, [] => false
  | p :: ps, c :: cs => lcEq p c && lcPrefixAt ps cs

/-- Case-insensitive substring test. -/
def hasSubCI (sub : List Char) : List Char → Bool
  | [] => sub.isEmpty
  | c :: cs => lcPrefixAt sub (c :: cs) || hasSubCI sub cs

def thinkOpenTag : List Char := "<think>".data

def thinkCloseTag : List Char := "</think>".data

/-- The text after the nearest tag occurrence, located by the given test
(the tag spans `n` characters), when one occurs. -/
def dropAfterTag (tagAt : List Char → Bool) (n : Nat) : List Char → Option (List Char)
  | [] => none
  | c :: cs =>
    if tagAt (c :: cs) then some (List.drop n (c :: cs)) else dropAfterTag tagAt n cs

theorem dropAfterTag_suffix (tagAt : List Char → Bool) (n : Nat) :
    ∀ xs r : List Char, dropAfterTag tagAt n xs = some r → r <:+ xs
  | [], r, h => by simp [dropAfterTag] at h
  | c :: cs, r, h => by
    by_cases hp : tagAt (c :: cs)
    · simp only [dropAfterTag, if_pos hp, Option.some.injEq] at h
      exact h ▸ List.drop_suffix n (c :: cs)
    · simp only [dropAfterTag, if_neg hp] at h
      exact (dropAfterTag_suffix tagAt n cs r h).trans (List.suffix_cons c cs)

/-- Fuel-indexed worker of the first reasoning-tag pass.  Every recursive
call shortens the text, so with the text length as fuel (supplied by the
wrapper below) the zero-fuel branch is reached only on empty text; the fuel
only makes the recursion structural so that concrete texts evaluate. -/
def stripThinkClosedGo : Nat → List Char → List Char
  | 0, _ => []
  | _ + 1, [] => []
  | fuel + 1, c :: cs =>
    match dropAfterTag (lcPrefixAt thinkCloseTag) 8 (List.drop 7 (c :: cs)) with
    | some rest =>
      if lcPrefixAt thinkOpenTag (c :: cs) then stripThinkClosedGo fuel rest
      else c :: stripThinkClosedGo fuel cs
    | none => c :: stripThinkClosedGo fuel cs

/-- First reasoning-tag pass: the substitution deleting every matched think
block with DOTALL and IGNORECASE semantics.  Scanning left to right, each
case-insensitive opening tag that has a later closing tag is deleted
together with everything up to and including the nearest closing tag, and
scanning resumes after it (the substitution never rescans its own output);
an opening tag with no later closing tag stays for the second pass. -/
def stripThinkClosed (xs : List Char) : List Char := stripThinkClosedGo xs.length xs

/-- Second reasoning-tag pass: delete from the first remaining
case-insensitive opening tag to the end of the text (tolerating an
unterminated reasoning block). -/
def stripThinkOpen : List Char → List Char
  | [] => []
  | c :: cs => if lcPrefixAt thinkOpenTag (c :: cs) then [] else c :: stripThinkOpen cs

theorem mem_stripThinkClosedGo : ∀ (fuel : Nat) (xs : List Char) (a : Char),
    a ∈ stripThinkClosedGo fuel xs → a ∈ xs
  | 0, xs, a, h => by simp [stripThinkClosedGo] at h
  | _ + 1, [], a, h => by simp [stripThinkClosedGo] at h
  | fuel + 1, c :: cs, a, h => by
    rw [stripThinkClosedGo] at h
    split at h
    next rest hrest =>
      split at h
      · exact ((dropAfterTag_suffix _ _ _ _ hrest).subset.trans
          (List.drop_subset 7 (c :: cs))) (mem_stripThinkClosedGo fuel rest a h)
      · rcases List.mem_cons.mp h with h | h
        · simp [h]
        · exact List.mem_cons_of_mem _ (mem_stripThinkClosedGo fuel cs a h)
    next =>
      rcases List.mem_cons.mp h with h | h
      · simp [h]
      · exact List.mem_cons_of_mem _ (mem_stripThinkClosedGo fuel cs a h)

theorem mem_stripThinkClosed (xs : List Char) (a : Char) (h : a ∈ stripThinkClosed xs) : a ∈ xs :=
  mem_stripThinkClosedGo xs.length xs a h

theorem mem_stripThinkOpen : ∀ (xs : List Char) (a : Char), a ∈ stripThinkOpen xs → a ∈ xs := by
  intro xs
  induction xs with
  | nil => intro a h; simpa [stripThinkOpen] using h
  | cons c cs ih =>
    intro a ha
    by_cases hp : lcPrefixAt thinkOpenTag (c :: cs)
    · rw [stripThinkOpen, if_pos hp] at ha
      simp at ha
    · rw [stripThinkOpen, if_neg hp] at ha
      rcases List.mem_cons.mp ha with ha | ha
      · simp [ha]
      · exact List.mem_cons_of_mem _ (ih a ha)

def fenceJsonTag : List Char := "```json".data

def fenceTag : List Char := "```".data

/-- Python s.split(sep, 1): the text before and after the first occurrence
of the separator, when it occurs (separators used here are nonempty). -/
def splitFirst (sep : List Char) : List Char → Option (List Char × List Char)
  | [] => none
  | c :: cs =>
    if prefixAt sep (c :: cs) then some ([], List.drop sep.length (c :: cs))
    else
      match splitFirst sep cs with
      | some pq => some (c :: pq.1, pq.2)
      | none => none

theorem splitFirst_mem (sep : List Char) :
    ∀ xs pre post : List Char, splitFirst sep xs = some (pre, post) →
      (∀ a ∈ pre, a ∈ xs) ∧ ∀ a ∈ post, a ∈ xs
  | [], pre, post, h => by simp [splitFirst] at h
  | c :: cs, pre, post, h => by
    by_cases hp : prefixAt sep (c :: cs)
    · simp only [splitFirst, if_pos hp, Option.some.injEq, Prod.mk.injEq] at h
      refine ⟨fun a ha => by simp [← h.1] at ha, fun a ha => ?_⟩
      exact List.drop_subset _ _ (h.2 ▸ ha)
    · simp only [splitFirst, if_neg hp] at h
      match hs : splitFirst sep cs with
      | none => rw [hs] at h; exact absurd h (by simp)
      | some pq =>
        rw [hs] at h
        simp only [Option.some.injEq, Prod.mk.injEq] at h
        have ih := splitFirst_mem sep cs pq.1 pq.2 (by rw [hs])
        constructor
        · intro a ha
          rw [← h.1] at ha
          rcases List.mem_cons.mp ha with ha | ha
          · simp [ha]
          · exact List.mem_cons_of_mem _ (ih.1 a ha)
        · intro a ha
          exact List.mem_cons_of_mem _ (ih.2 a (h.2 ▸ ha))

/-- The Python whitespace class of str.strip and the regex escape class. -/
def isPyWs (c : Char) : Bool :=
  c == ' ' || c == '\t' || c == '\n' || c == '\r' || c == '\x0b' || c == '\x0c'

/-- Python str.strip(). -/
def stripWs (xs : List Char) : List Char :=
  ((xs.dropWhile isPyWs).reverse.dropWhile isPyWs).reverse

theorem mem_of_mem_dropWhile {α : Type} (p : α → Bool) :
    ∀ (l : List α) (a : α), a ∈ l.dropWhile p → a ∈ l
  | [], a, h => by simpa using h
  | b :: t, a, h => by
    by_cases hb : p b
    · rw [List.dropWhile_cons, if_pos hb] at h
      exact List.mem_cons_of_mem _ (mem_of_mem_dropWhile p t a h)
    · rwa [List.dropWhile_cons, if_neg hb] at h

theorem mem_stripWs (xs : List Char) (a : Char) (h : a ∈ stripWs xs) : a ∈ xs := by
  rw [stripWs, List.mem_reverse] at h
  have h2 := mem_of_mem_dropWhile isPyWs _ _ h
  rw [List.mem_reverse] at h2
  exact mem_of_mem_dropWhile isPyWs _ _ h2

/-- Code-fence extraction (fastUpload.py lines 37-43): with a json-tagged
fence present, the stripped text between the first json fence and the next
plain fence (or the end); otherwise, with at least three split parts (two
plain fences), the stripped text between the first two; otherwise the text
unchanged. -/
def fenceExtract (text : List Char) : List Char :=
  if hasSub fenceJsonTag text then
    match splitFirst fenceJsonTag text with
    | some pq =>
      match splitFirst fenceTag pq.2 with
      | some pq2 => stripWs pq2.1
      | none => stripWs pq.2
    | none => text
  else if hasSub fenceTag text then
    match splitFirst fenceTag text with
    | some pq =>
      match splitFirst fenceTag pq.2 with
      | some pq2 => stripWs pq2.1
      | none => text
    | none => text
  else text

theorem mem_fenceExtract (text : List Char) (a : Char) (h : a ∈ fenceExtract text) : a ∈ text := by
  rw [fenceExtract] at h
  split at h
  · split at h
    case _ pq hpq =>
      have h1 := splitFirst_mem fenceJsonTag text pq.1 pq.2 (by rw [hpq])
      split at h
      case _ pq2 hpq2 =>
        have h2 := splitFirst_mem fenceTag pq.2 pq2.1 pq2.2 (by rw [hpq2])
        exact h1.2 a (h2.1 a (mem_stripWs _ _ h))
      case _ => exact h1.2 a (mem_stripWs _ _ h)
    case _ => exact h
  · split at h
    · split at h
      case _ pq hpq =>
        have h1 := splitFirst_mem fenceTag text pq.1 pq.2 (by rw [hpq])
        split at h
        case _ pq2 hpq2 =>
          have h2 := splitFirst_mem fenceTag pq.2 pq2.1 pq2.2 (by rw [hpq2])
          exact h1.2 a (h2.1 a (mem_stripWs _ _ h))
        case _ => exact h
      case _ => exact h
    · exact h

/-- Brace scanning (fastUpload.py lines 55-74): from the first opening
brace, track the running brace count and return the slice through the brace
that returns the count to zero, or nothing when the count never does. -/
def matchBraces : List Char → Nat → Option (List Char)
  | [], _ => none
  | c :: cs, depth =>
    if c = '\x7b' then (matchBraces cs (depth + 1)).map (c :: ·)
    else if c = '\x7d' then
      if depth = 1 then some [c]
      else (matchBraces cs (depth - 1)).map (c :: ·)
    else (matchBraces cs depth).map (c :: ·)

def lineCommentTag : List Char := "//".data

/-- Fuel-indexed worker of the line-comment substitution; as with the other
scanners, every recursive call shortens the text, so the length fuel of the
wrapper never runs out. -/
def stripLineCommentsGo : Nat → List Char → List Char
  | 0, _ => []
  | _ + 1, [] => []
  | fuel + 1, c :: cs =>
    if prefixAt lineCommentTag (c :: cs) then
      stripLineCommentsGo fuel (cs.dropWhile fun a => a ≠ '\n')
    else c :: stripLineCommentsGo fuel cs

/-- The substitution removing line comments: each // span runs to just
before the next newline or the end of the text, and scanning resumes at the
newline. -/
def stripLineComments (xs : List Char) : List Char := stripLineCommentsGo xs.length xs

def blockCloseTag : List Char := "*/".data

/-- Fuel-indexed worker of the block-comment substitution. -/
def stripBlockCommentsGo : Nat → List Char → List Char
  | 0, _ => []
  | _ + 1, [] => []
  | fuel + 1, c :: cs =>
    match dropAfterTag (prefixAt blockCloseTag) 2 (List.drop 2 (c :: cs)) with
    | some rest =>
      if prefixAt "/*".data (c :: cs) then stripBlockCommentsGo fuel rest
      else c :: stripBlockCommentsGo fuel cs
    | none => c :: stripBlockCommentsGo fuel cs

/-- The substitution removing block comments with DOTALL semantics: each
/* opening with a later closing marker is deleted through the nearest
closing marker, and scanning resumes after it; an unclosed opening stays. -/
def stripBlockComments (xs : List Char) : List Char := stripBlockCommentsGo xs.length xs

/-- After a comma: greedily skip regex whitespace and detect a closing
brace or bracket, yielding the closer and the text after it. -/
def wsThenClose : List Char → Option (Char × List Char)
  | [] => none
  | c :: cs =>
    if isPyWs c then wsThenClose cs
    else if c = '\x7d' || c = ']' then some (c, cs)
    else none

/-- Fuel-indexed worker of the trailing-comma substitution. -/
def stripTrailingCommasGo : Nat → List Char → List Char
  | 0, _ => []
  | _ + 1, [] => []
  | fuel + 1, c :: cs =>
    match wsThenClose cs with
    | some st =>
      if c = ',' then st.1 :: stripTrailingCommasGo fuel st.2
      else c :: stripTrailingCommasGo fuel cs
    | none => c :: stripTrailingCommasGo fuel cs

/-- The substitution replacing comma + whitespace + closing bracket by the
bare closing bracket, resuming after the match. -/
def stripTrailingCommas (xs : List Char) : List Char := stripTrailingCommasGo xs.length xs

/-! ### Strict JSON reader, modelling json.loads -/

/-- The whitespace class of the JSON grammar. -/
def isJsonWs (c : Char) : Bool := c == ' ' || c == '\t' || c == '\n' || c == '\r'

def isDigitCh (c : Char) : Bool := '0' ≤ c && c ≤ '9'

/-- String-literal body reader: consumes through the closing quote,
decoding the single-character escapes; raw control characters are
rejected as in the strict reader.  Unicode escapes are outside the model
(none occur in the replies under analysis; the reader rejects them, which
only diverts such inputs to the degraded-result branch). -/
def parseStringBody : List Char → Option (List Char × List Char)
  | [] => none
  | c :: cs =>
    if c = '"' then some ([], cs)
    else if c = '\\' then
      match cs with
      | [] => none
      | e :: es =>
        let dec : Option Char :=
          if e = '"' then some '"' else if e = '\\' then some '\\'
          else if e = '/' then some '/' else if e = 'n' then some '\n'
          else if e = 't' then some '\t' else if e = 'r' then some '\r'
          else if e = 'b' then some '\x08' else if e = 'f' then some '\x0c'
          else none
        match dec with
        | some ch => (parseStringBody es).map fun pr => (ch :: pr.1, pr.2)
        | none => none
    else if c.toNat < 32 then none
    else (parseStringBody cs).map fun pr => (c :: pr.1, pr.2)

/-- Numeric-literal lexer of the JSON grammar; the literal text is kept
verbatim (no property proved here inspects numeric semantics). -/
def lexNumberCore (r1 : List Char) : Option (List Char × List Char) :=
  let intPart := r1.takeWhile isDigitCh
  if intPart.isEmpty then none
  else if 1 < intPart.length ∧ intPart.headI = '0' then none
  else
    let r2 := r1.drop intPart.length
    let fracPr : List Char × List Char :=
      match r2 with
      | '.' :: rest =>
        let ds := rest.takeWhile isDigitCh
        if ds.isEmpty then ([], r2)
        else ('.' :: ds, rest.drop ds.length)
      | _ => ([], r2)
    let r3 := fracPr.2
    let expPr : List Char × List Char :=
      match r3 with
      | e :: rest =>
        if e = 'e' || e = 'E' then
          match rest with
          | s :: rest2 =>
            if s = '+' || s = '-' then
              let ds := rest2.takeWhile isDigitCh
              if ds.isEmpty then ([], r3)
              else (e :: s :: ds, rest2.drop ds.length)
            else
              let ds := rest.takeWhile isDigitCh
              if ds.isEmpty then ([], r3)
              else (e :: ds, rest.drop ds.length)
          | [] => ([], r3)
        else ([], r3)
      | [] => ([], r3)
    some (intPart ++ fracPr.1 ++ expPr.1, expPr.2)

/-- Number lexer with the optional leading minus. -/
def lexNumber (xs : List Char) : Option (List Char × List Char) :=
  match xs with
  | '-' :: r1 => (lexNumberCore r1).map fun pr => ('-' :: pr.1, pr.2)
  | _ => lexNumberCore xs

mutual

/-- Fuel-indexed value reader of the strict JSON grammar.  Fuel strictly
decreases on every call and every step consumes input, so the generous
bound in json_loads never runs out on the texts under analysis. -/
def parseJVal : Nat → List Char → Option (JVal × List Char)
  | 0, _ => none
  | fuel + 1, xs =>
    let ys := xs.dropWhile isJsonWs
    match ys with
    | [] => none
    | c :: cs =>
      if c = '"' then (parseStringBody cs).map fun pr => (JVal.str (String.mk pr.1), pr.2)
      else if c = '\x7b' then parseObjBody fuel cs
      else if c = '[' then parseArrBody fuel cs
      else if prefixAt "true".data ys then some (JVal.bool true, ys.drop 4)
      else if prefixAt "false".data ys then some (JVal.bool false, ys.drop 5)
      else if prefixAt "null".data ys then some (JVal.null, ys.drop 4)
      else (lexNumber ys).map fun pr => (JVal.num (String.mk pr.1), pr.2)

/-- Object reader, entered after the opening brace. -/
def parseObjBody : Nat → List Char → Option (JVal × List Char)
  | 0, _ => none
  | fuel + 1, xs =>
    match xs.dropWhile isJsonWs with
    | '\x7d' :: rest => some (JVal.obj [], rest)
    | _ => parseObjItems fuel xs []

/-- Member loop of the object reader; a duplicate key overwrites its
earlier value in place, as the Python dict builder does. -/
def parseObjItems : Nat → List Char → List (String × JVal) → Option (JVal × List Char)
  | 0, _, _ => none
  | fuel + 1, xs, acc =>
    match xs.dropWhile isJsonWs with
    | '"' :: cs =>
      match parseStringBody cs with
      | none => none
      | some pr =>
        match pr.2.dropWhile isJsonWs with
        | ':' :: vs =>
          match parseJVal fuel vs with
          | none => none
          | some vpr =>
            match vpr.2.dropWhile isJsonWs with
            | ',' :: more => parseObjItems fuel more (dictSet acc (String.mk pr.1) vpr.1)
            | '\x7d' :: rest => some (JVal.obj (dictSet acc (String.mk pr.1) vpr.1), rest)
            | _ => none
        | _ => none
    | _ => none

/-- Array reader, entered after the opening bracket. -/
def parseArrBody : Nat → List Char → Option (JVal × List Char)
  | 0, _ => none
  | fuel + 1, xs =>
    match xs.dropWhile isJsonWs with
    | ']' :: rest => some (JVal.arr [], rest)
    | _ => parseArrItems fuel xs []

/-- Element loop of the array reader. -/
def parseArrItems : Nat → List Char → List JVal → Option (JVal × List Char)
  | 0, _, _ => none
  | fuel + 1, xs, acc =>
    match parseJVal fuel xs with
    | none => none
    | some vpr =>
      match vpr.2.dropWhile isJsonWs with
      | ',' :: more => parseArrItems fuel more (acc ++ [vpr.1])
      | ']' :: rest => some (JVal.arr (acc ++ [vpr.1]), rest)
      | _ => none

end

/-- json.loads: one JSON value followed only by whitespace. -/
def json_loads (xs : List Char) : Option JVal :=
  match parseJVal (2 * xs.length + 4) xs with
  | some pr => if (pr.2.dropWhile isJsonWs).isEmpty then some pr.1 else none
  | none => none

/-! ### The tolerant parser -/

/-- Degraded result when no opening brace survives the stripping steps
(fastUpload.py lines 48-53). -/
def noJsonFoundResult (raw : List Char) : JVal :=
  .obj [("operations", .arr []), ("error", .str "No JSON object found"),
    ("raw_response", .str (String.mk (raw.take 1500)))]

/-- Degraded result when the brace count never returns to zero
(fastUpload.py lines 67-72). -/
def incompleteJsonResult (raw : List Char) : JVal :=
  .obj [("operations", .arr []), ("error", .str "Incomplete JSON object"),
    ("raw_response", .str (String.mk (raw.take 1500)))]

/-- Degraded result when the candidate cannot be parsed at all
(fastUpload.py lines 96-102). -/
def unparsedResult (raw : List Char) : JVal :=
  .obj [("operations", .arr []), ("summary", .str (String.mk (raw.take 200))),
    ("raw_response", .str (String.mk (raw.take 1500))),
    ("error", .str "Could not parse Nemotron JSON response")]

/-- The tolerant reply parser _parse_nemotron_json (fastUpload.py lines
24-102): strip reasoning blocks, extract fenced content, slice the first
brace-balanced candidate, clean comments and trailing commas, then attempt
a strict JSON parse.  The optional json5 second attempt is modelled as the
bare deployment where that module is missing (the ImportError path), so a
strict-parse failure lands on the final degraded dict; no property proved
here depends on that branch. -/
def parse_nemotron_json (raw : List Char) : JVal :=
  let t1 := stripThinkOpen (stripThinkClosed raw)
  let t2 := fenceExtract t1
  match t2.dropWhile (fun c => c ≠ '\x7b') with
  | [] => noJsonFoundResult raw
  | c :: cs =>
    match matchBraces (c :: cs) 0 with
    | none => incompleteJsonResult raw
    | some candidate =>
      let cleaned := stripTrailingCommas (stripBlockComments (stripLineComments candidate))
      match json_loads cleaned with
      | some v => v
      | none => unparsedResult raw

/-- The reply of the C5 scenario: reasoning prose, then a json-tagged
fenced block holding an empty operations object, then trailing text. -/
def c5Reply : String :=
  "...reasoning text... ```json \x7b\"operations\":[]\x7d ``` trailing"

/-- Claim C5: parsing a reply of reasoning prose followed by a json-tagged
fenced block holding an empty operations object and trailing text yields
exactly that object, with no parse error recorded in the result — the first
fenced block is extracted before brace matching, so the surrounding prose
does not corrupt the parse. -/
theorem C5_fenced_reply_parses :
    parse_nemotron_json c5Reply.data = JVal.obj [("operations", JVal.arr [])] ∧
      (parse_nemotron_json c5Reply.data).hasKey "error" = false :=
  ⟨by rfl, by rfl⟩

/-- Claim C6: every reply holding an unterminated reasoning block and no
JSON object at all (no opening brace anywhere) parses — without any
exception, the embedded parser being total — to the degraded dict carrying
an empty operations list, the no-JSON-object-found error flag, and the
first 1500 characters of the raw reply. -/
theorem C6_unterminated_think_no_json (raw : List Char)
    (hopen : hasSubCI thinkOpenTag raw = true)
    (hclose : hasSubCI thinkCloseTag raw = false)
    (hnobrace : '\x7b' ∉ raw) :
    parse_nemotron_json raw = noJsonFoundResult raw := by
  have hproc : ∀ a ∈ fenceExtract (stripThinkOpen (stripThinkClosed raw)), a ∈ raw := fun a ha =>
    mem_stripThinkClosed raw a (mem_stripThinkOpen _ a (mem_fenceExtract _ a ha))
  have hdrop :
      (fenceExtract (stripThinkOpen (stripThinkClosed raw))).dropWhile (fun c => c ≠ '\x7b') = [] := by
    rw [List.dropWhile_eq_nil_iff]
    intro a ha
    simp only [ne_eq, decide_eq_true_eq]
    intro heq
    exact hnobrace (heq ▸ hproc a ha)
  simp only [parse_nemotron_json]
  rw [hdrop]

/-- The reply of the C6 witness: an unterminated reasoning block, nothing
else. -/
def c6Reply : String := "<think> this block is never closed and no JSON follows"

/-- Witness for C6 at a concrete degenerate reply. -/
theorem C6_witness :
    hasSubCI thinkOpenTag c6Reply.data = true ∧
      hasSubCI thinkCloseTag c6Reply.data = false ∧
      '\x7b' ∉ c6Reply.data ∧
      parse_nemotron_json c6Reply.data = noJsonFoundResult c6Reply.data :=
  ⟨by decide, by decide, by decide,
    C6_unterminated_think_no_json c6Reply.data (by decide) (by decide) (by decide)⟩

/-! ## Job store and HTTP endpoints (fastUpload.py lines 657-898)

The in-memory jobs registry is an insertion-ordered association list from
job id to the job dict.  Each endpoint becomes a function from the store
and its request data to the new store and its JSON response; the LLM call
inside an endpoint is abstracted into a parameter holding the parsed reply
of that call. -/

abbrev Store : Type := List (String × JVal)

/-- Deterministic residue of `phase3_retry_failed_operations` (fastUpload.py
lines 476-651).  The two LLM calls are abstracted into `llm`, the parsed
reply of the second (JSON-adjustment) call; the first (analysis) call only
feeds the prompt of the second, and the retry-analysis context built from
the failed subset feeds both prompts.  The function partitions the reported
results by truthiness of their success field, answers an empty plan when
nothing failed, and otherwise returns the LLM reply unchanged — no check
relates the reply to the failed operations. -/
def phase3_retry_failed_operations (execution_results : List JVal) (llm : JVal) : JVal :=
  let failed := execution_results.filter fun r => !pyTruthy (r.get "success" .null)
  if failed.isEmpty then JVal.obj [("operations", .arr [])]
  else llm

/-- The `retry_failed_operations` endpoint (fastUpload.py lines 838-878):
look the job up, reject an empty report, run Phase 3, store its reply as
the retry operations, mark the phase, and return the reply's operation
list verbatim. -/
def retry_failed_endpoint (jobs : Store) (job_id : String) (execution_results llm : JVal) :
    Store × JVal :=
  match dictFind jobs job_id with
  | none => (jobs, .obj [("error", .str "Job not found")])
  | some job =>
    let results := jarrOf (execution_results.get "execution_results" (.arr []))
    if results.isEmpty then (jobs, .obj [("error", .str "No execution results provided")])
    else
      let retry_ops := phase3_retry_failed_operations results llm
      let job2 := (job.set "retry_operations" retry_ops).set "phase" (.str "retry_ready")
      (dictSet jobs job_id job2,
        .obj [("status", .str "success"),
          ("retry_operations", retry_ops.get "operations" (.arr [])),
          ("count", .num (toString (jarrOf (retry_ops.get "operations" (.arr []))).length))])

/-- The `submit_job` endpoint (fastUpload.py lines 657-736), with the two
LLM phases abstracted into their parsed replies `phase1` and `phase2llm`;
saving the uploaded file is out of scope and `created_at` is an opaque
timestamp string.  A Phase-1 error dict parks the job as failed; otherwise
Phase 2 runs without model data and the job awaits model analysis — a
Phase-2 error or empty operation list is only logged, never fatal. -/
def submit_job (jobs : Store) (job_id text_command created_at : String)
    (phase1 phase2llm : JVal) : Store × JVal :=
  let f3d_path := "jobs/" ++ job_id ++ "/input.f3d"
  if phase1.hasKey "error" then
    let job : JVal := .obj [("status", .str "failed"), ("error", phase1.get "error" .null),
      ("text_command", .str text_command), ("input_file", .str f3d_path),
      ("created_at", .str created_at)]
    (dictSet jobs job_id job,
      .obj [("job_id", .str job_id), ("status", .str "failed"),
        ("error", phase1.get "error" .null)])
  else
    let operations := phase2_generate_operations phase1 .null phase2llm
    let job : JVal := .obj [("status", .str "pending_analysis"),
      ("text_command", .str text_command), ("design_intent", phase1),
      ("preliminary_operations", operations), ("model_analysis", .null),
      ("final_operations", .null), ("input_file", .str f3d_path), ("output_file", .null),
      ("created_at", .str created_at), ("phase", .str "awaiting_model_analysis")]
    (dictSet jobs job_id job,
      .obj [("job_id", .str job_id), ("status", .str "pending_analysis"),
        ("design_intent", phase1), ("preliminary_operations", operations),
        ("next_step", .str "Fusion 360 add-in should analyze the model and POST to /jobs/\x7bjob_id\x7d/analysis")])

/-- The `submit_model_analysis` endpoint (fastUpload.py lines 739-777), the
Phase-2B LLM reply abstracted into `llm`.  The only validation is job
existence: the analysis is stored, Phase 2 re-runs with the model data, and
the refined operations overwrite the final operations, whatever phase the
job was in.  The second component is `none` when the handler escapes with
an exception: indexing `design_intent` on a job that failed at creation
raises KeyError after the analysis has already been stored (the store keeps
the mutations applied up to that point). -/
def submit_model_analysis (jobs : Store) (job_id : String) (analysis llm : JVal) :
    Store × Option JVal :=
  match dictFind jobs job_id with
  | none => (jobs, some (.obj [("error", .str "Job not found")]))
  | some job =>
    let job1 := job.set "model_analysis" analysis
    let jobs1 := dictSet jobs job_id job1
    match job1 with
    | .obj fields1 =>
      match dictFind fields1 "design_intent" with
      | none => (jobs1, none)
      | some di =>
        let refined := phase2_generate_operations di analysis llm
        let job2 := ((job1.set "final_operations" refined).set "status"
          (.str "pending")).set "phase" (.str "ready_for_execution")
        (dictSet jobs job_id job2,
          some (.obj [("status", .str "success"),
            ("message", .str "Model analysis received and operations refined"),
            ("operations", refined)]))
    | _ => (jobs1, none)

/-- The awaiting-analysis projection of one job in `poll_jobs`
(fastUpload.py lines 787-798). -/
def pollAwaitingView (v : JVal) : JVal :=
  .obj [("status", v.get "status" .null), ("phase", v.get "phase" .null),
    ("text_command", v.get "text_command" .null), ("input_file", v.get "input_file" .null),
    ("design_intent", v.get "design_intent" .null),
    ("preliminary_operations", v.get "preliminary_operations" .null)]

/-- The ready-for-execution projection of one job in `poll_jobs`
(fastUpload.py lines 801-811). -/
def pollReadyView (v : JVal) : JVal :=
  .obj [("status", v.get "status" .null), ("phase", v.get "phase" .null),
    ("text_command", v.get "text_command" .null), ("input_file", v.get "input_file" .null),
    ("final_operations", v.get "final_operations" .null)]

/-- The `poll_jobs` endpoint (fastUpload.py lines 780-816): two disjoint
views of the store, filtered by status. -/
def poll_jobs (jobs : Store) : JVal :=
  .obj [("awaiting_analysis", .obj
      (((jobs.filter fun kv => jeqStr (kv.2.get "status" .null) "pending_analysis").map
        fun kv => (kv.1, pollAwaitingView kv.2)))),
    ("ready_for_execution", .obj
      (((jobs.filter fun kv => jeqStr (kv.2.get "status" .null) "pending").map
        fun kv => (kv.1, pollReadyView kv.2))))]

/-- The `complete_job` endpoint (fastUpload.py lines 819-835); writing the
uploaded file to disk is out of scope, the stored path being the
deterministic jobs/<id>/output.f3d. -/
def complete_job (jobs : Store) (job_id : String) : Store × JVal :=
  match dictFind jobs job_id with
  | none => (jobs, .obj [("error", .str "Job not found")])
  | some job =>
    let output_path := "jobs/" ++ job_id ++ "/output.f3d"
    let job2 := ((job.set "status" (.str "completed")).set "output_file"
      (.str output_path)).set "phase" (.str "completed")
    (dictSet jobs job_id job2, .obj [("status", .str "success")])

theorem isEmpty_false_of_ne_nil {α : Type} {l : List α} (h : l ≠ []) : l.isEmpty = false := by
  cases l with
  | nil => exact absurd rfl h
  | cons a t => rfl

/-- Reading a key set on a dict value under further sets of other keys. -/
theorem get_set_obj_ne (fields : List (String × JVal)) (k k' : String) (x dflt : JVal)
    (h : k' ≠ k) : (JVal.set (.obj fields) k x).get k' dflt = (JVal.obj fields).get k' dflt := by
  simp [JVal.set, JVal.get, dictFind_dictSet_ne _ _ _ _ h]

/-- The fields of the C1 job, parked ready for execution. -/
def c1JobFields : List (String × JVal) :=
  [("status", .str "pending"), ("text_command", .str "reduce weight by 30 percent"),
    ("design_intent", .obj []), ("model_analysis", .obj []), ("final_operations", .obj []),
    ("phase", .str "ready_for_execution")]

def c1Store : Store := [("job-1", .obj c1JobFields)]

/-- A failed shell execution result, as the executor reports it. -/
def c1FailedResult : JVal :=
  .obj [("operation", .obj [("id", .str "op_001"), ("type", .str "shell_body"),
    ("params", .obj [("wall_thickness", .num "5.0")])]),
    ("success", .bool false), ("error", .str "topology change")]

def c1Request : JVal := .obj [("execution_results", .arr [c1FailedResult])]

/-- A Phase-3 LLM reply that disobeys the prompt and switches the failed
shell operation to a fillet operation. -/
def c1Llm : JVal :=
  .obj [("operations", .arr [.obj [("id", .str "op_retry_001"),
    ("type", .str "fillet_all_edges"), ("params", .obj [("radius", .num "1.0")])]])]

/-- Counterexample to claim C1: with exactly one failed operation reported,
of type shell_body, a Phase-3 reply proposing a fillet_all_edges operation
is returned to the caller and stored as the retry operations verbatim — the
returned operation's type differs from the type of the one failed operation
it replaces, and the pipeline discards nothing. -/
theorem C1_counterexample :
    ((jarrOf ((retry_failed_endpoint c1Store "job-1" c1Request c1Llm).2.get
        "retry_operations" (.arr []))).map fun op => jstrOf (op.get "type" (.str "")))
      = ["fillet_all_edges"] ∧
    (((jarrOf (c1Request.get "execution_results" (.arr []))).filter fun r =>
        !pyTruthy (r.get "success" .null)).map fun r =>
          jstrOf ((r.get "operation" .null).get "type" (.str ""))) = ["shell_body"] ∧
    (match dictFind (retry_failed_endpoint c1Store "job-1" c1Request c1Llm).1 "job-1" with
      | some j => (jarrOf ((j.get "retry_operations" .null).get "operations" (.arr []))).map
          fun op => jstrOf (op.get "type" (.str ""))
      | none => []) = ["fillet_all_edges"] ∧
    ("fillet_all_edges" : String) ≠ "shell_body" :=
  ⟨by rfl, by rfl, by rfl, by decide⟩

/-- Claim C1 amended: Phase 3 enforces no type contract — whenever the
report contains at least one failed operation, the Phase-3 LLM reply is
returned unchanged, and the retry endpoint stores it as the job's retry
operations and sends its operation list back to the caller verbatim;
same-type replacement is requested only in the LLM prompt, never enforced
by the pipeline. -/
theorem C1_amended_passthrough (jobs : Store) (job_id : String)
    (fields : List (String × JVal)) (req llm : JVal)
    (hjob : dictFind jobs job_id = some (JVal.obj fields))
    (hne : jarrOf (req.get "execution_results" (.arr [])) ≠ [])
    (hfail : (jarrOf (req.get "execution_results" (.arr []))).filter
      (fun r => !pyTruthy (r.get "success" .null)) ≠ []) :
    phase3_retry_failed_operations (jarrOf (req.get "execution_results" (.arr []))) llm = llm ∧
    (retry_failed_endpoint jobs job_id req llm).2.get "retry_operations" (.arr [])
      = llm.get "operations" (.arr []) ∧
    (match dictFind (retry_failed_endpoint jobs job_id req llm).1 job_id with
      | some j => j.get "retry_operations" .null
      | none => .null) = llm := by
  have h3 : phase3_retry_failed_operations
      (jarrOf (req.get "execution_results" (.arr []))) llm = llm := by
    rw [phase3_retry_failed_operations]
    rw [isEmpty_false_of_ne_nil hfail]
    rfl
  refine ⟨h3, ?_, ?_⟩
  · simp only [retry_failed_endpoint, hjob, isEmpty_false_of_ne_nil hne, h3]
    simp [JVal.get, dictFind]
  · have hstore : dictFind (retry_failed_endpoint jobs job_id req llm).1 job_id
        = some (((JVal.obj fields).set "retry_operations"
            (phase3_retry_failed_operations
              (jarrOf (req.get "execution_results" (.arr []))) llm)).set
            "phase" (.str "retry_ready")) := by
      simp only [retry_failed_endpoint, hjob, isEmpty_false_of_ne_nil hne, Bool.false_eq_true,
        if_false, dictFind_dictSet_self]
    rw [hstore, h3]
    show (dictFind (dictSet (dictSet fields "retry_operations" llm) "phase"
      (JVal.str "retry_ready")) "retry_operations").getD JVal.null = llm
    rw [dictFind_dictSet_ne _ _ _ _ (by decide), dictFind_dictSet_self]
    rfl

/-- Witness for the amended C1 at the concrete counterexample inputs. -/
theorem C1_amended_witness :
    phase3_retry_failed_operations (jarrOf (c1Request.get "execution_results" (.arr []))) c1Llm
        = c1Llm ∧
    (retry_failed_endpoint c1Store "job-1" c1Request c1Llm).2.get "retry_operations" (.arr [])
      = c1Llm.get "operations" (.arr []) ∧
    (match dictFind (retry_failed_endpoint c1Store "job-1" c1Request c1Llm).1 "job-1" with
      | some j => j.get "retry_operations" .null
      | none => .null) = c1Llm :=
  C1_amended_passthrough c1Store "job-1" c1JobFields c1Request c1Llm (by rfl)
    (List.cons_ne_nil _ _) (List.cons_ne_nil _ _)

/-- One field of the job stored under an id, null when the id is unknown
(a status/inspection helper over the store). -/
def jobField (jobs : Store) (job_id key : String) : JVal :=
  match dictFind jobs job_id with
  | some j => j.get key .null
  | none => .null

/-- Phase-1 intent for a hanger, as the C2 scenario uses it. -/
def c2Phase1 : JVal :=
  .obj [("design_intent", .obj [("part_type", .str "hanger"),
    ("use_case_description", .str "hangs headphones under a desk")]),
    ("modification_strategy", .obj [("approach", .str "shell_and_reinforce")])]

def c2ShellOp : JVal :=
  .obj [("id", .str "op_001"), ("type", .str "shell_body"),
    ("params", .obj [("wall_thickness", .num "6.0")])]

def c2Analysis : JVal :=
  .obj [("current_mass", .num "120.0"), ("can_shell", .bool true)]

/-- First Phase-2B reply: one shell operation. -/
def c2LlmA : JVal := .obj [("operations", .arr [c2ShellOp])]

/-- Second Phase-2B reply: no operations at all. -/
def c2LlmB : JVal := .obj [("operations", .arr [])]

/-- Store after submitting the job. -/
def c2Store1 : Store :=
  (submit_job [] "job-1" "make this lighter" "2026-10-12T00:00:00" c2Phase1 c2LlmA).1

/-- Store after the first model-analysis submission. -/
def c2Store2 : Store := (submit_model_analysis c2Store1 "job-1" c2Analysis c2LlmA).1

/-- Counterexample to claim C2: after a first model-analysis submission has
moved the job out of pending_analysis (status pending, one final
operation), a second submission for the same job id is accepted with a
success response and re-runs Phase 2 — the final operations are overwritten
from the second reply (now zero operations), so the second submission is
neither rejected nor a no-op. -/
theorem C2_counterexample :
    jobField c2Store2 "job-1" "status" = .str "pending" ∧
    ((submit_model_analysis c2Store2 "job-1" c2Analysis c2LlmB).2.map fun r =>
      jstrOf (r.get "status" (.str ""))) = some "success" ∧
    (jarrOf ((jobField c2Store2 "job-1" "final_operations").get "operations" (.arr []))).length
      = 1 ∧
    (jarrOf ((jobField (submit_model_analysis c2Store2 "job-1" c2Analysis c2LlmB).1
      "job-1" "final_operations").get "operations" (.arr []))).length = 0 :=
  ⟨by rfl, by rfl, by rfl, by rfl⟩

/-- Claim C2 amended: submit_model_analysis validates only job existence —
a submission is accepted whatever the job's current status and phase; every
accepted submission on a job holding a design intent stores the analysis,
re-runs Phase 2 with the model data, overwrites the final operations with
the refined reply, and moves the job to ready_for_execution (so model
analysis and final operations are always set together by such a
submission).  In particular a second submission for a job that already left
pending_analysis is accepted and runs Phase 2 again: neither rejected nor a
no-op. -/
theorem C2_amended_no_phase_precondition (jobs : Store) (job_id : String)
    (fields : List (String × JVal)) (di analysis llm : JVal)
    (hjob : dictFind jobs job_id = some (JVal.obj fields))
    (hdi : dictFind (dictSet fields "model_analysis" analysis) "design_intent" = some di) :
    (submit_model_analysis jobs job_id analysis llm).2
      = some (.obj [("status", .str "success"),
          ("message", .str "Model analysis received and operations refined"),
          ("operations", phase2_generate_operations di analysis llm)]) ∧
    jobField (submit_model_analysis jobs job_id analysis llm).1 job_id "model_analysis"
      = analysis ∧
    jobField (submit_model_analysis jobs job_id analysis llm).1 job_id "final_operations"
      = phase2_generate_operations di analysis llm ∧
    jobField (submit_model_analysis jobs job_id analysis llm).1 job_id "status"
      = .str "pending" ∧
    jobField (submit_model_analysis jobs job_id analysis llm).1 job_id "phase"
      = .str "ready_for_execution" := by
  have hstore : dictFind (submit_model_analysis jobs job_id analysis llm).1 job_id
      = some (JVal.obj (dictSet (dictSet (dictSet (dictSet fields "model_analysis" analysis)
          "final_operations" (phase2_generate_operations di analysis llm))
          "status" (.str "pending")) "phase" (.str "ready_for_execution"))) := by
    simp only [submit_model_analysis, hjob, JVal.set, hdi, dictFind_dictSet_self]
  refine ⟨?_, ?_, ?_, ?_, ?_⟩
  · simp only [submit_model_analysis, hjob, JVal.set, hdi]
  · rw [jobField, hstore]
    show (dictFind (dictSet (dictSet (dictSet (dictSet fields "model_analysis" analysis)
      "final_operations" (phase2_generate_operations di analysis llm))
      "status" (.str "pending")) "phase" (.str "ready_for_execution"))
      "model_analysis").getD JVal.null = analysis
    rw [dictFind_dictSet_ne _ _ _ _ (by decide), dictFind_dictSet_ne _ _ _ _ (by decide),
      dictFind_dictSet_ne _ _ _ _ (by decide), dictFind_dictSet_self]
    rfl
  · rw [jobField, hstore]
    show (dictFind (dictSet (dictSet (dictSet (dictSet fields "model_analysis" analysis)
      "final_operations" (phase2_generate_operations di analysis llm))
      "status" (.str "pending")) "phase" (.str "ready_for_execution"))
      "final_operations").getD JVal.null = phase2_generate_operations di analysis llm
    rw [dictFind_dictSet_ne _ _ _ _ (by decide), dictFind_dictSet_ne _ _ _ _ (by decide),
      dictFind_dictSet_self]
    rfl
  · rw [jobField, hstore]
    show (dictFind (dictSet (dictSet (dictSet (dictSet fields "model_analysis" analysis)
      "final_operations" (phase2_generate_operations di analysis llm))
      "status" (.str "pending")) "phase" (.str "ready_for_execution"))
      "status").getD JVal.null = JVal.str "pending"
    rw [dictFind_dictSet_ne _ _ _ _ (by decide), dictFind_dictSet_self]
    rfl
  · rw [jobField, hstore]
    show (dictFind (dictSet (dictSet (dictSet (dictSet fields "model_analysis" analysis)
      "final_operations" (phase2_generate_operations di analysis llm))
      "status" (.str "pending")) "phase" (.str "ready_for_execution"))
      "phase").getD JVal.null = JVal.str "ready_for_execution"
    rw [dictFind_dictSet_self]
    rfl

/-- Fields of a job already parked ready for execution, used for the C2
witness. -/
def c2wFields : List (String × JVal) :=
  [("status", .str "pending"), ("text_command", .str "make this lighter"),
    ("design_intent", c2Phase1), ("model_analysis", c2Analysis),
    ("final_operations", c2LlmA), ("phase", .str "ready_for_execution")]

def c2wStore : Store := [("job-1", .obj c2wFields)]

/-- Witness for the amended C2: a repeated submission against a job already
in ready_for_execution. -/
theorem C2_amended_witness :
    (submit_model_analysis c2wStore "job-1" c2Analysis c2LlmB).2
      = some (.obj [("status", .str "success"),
          ("message", .str "Model analysis received and operations refined"),
          ("operations", phase2_generate_operations c2Phase1 c2Analysis c2LlmB)]) ∧
    jobField (submit_model_analysis c2wStore "job-1" c2Analysis c2LlmB).1 "job-1"
      "model_analysis" = c2Analysis ∧
    jobField (submit_model_analysis c2wStore "job-1" c2Analysis c2LlmB).1 "job-1"
      "final_operations" = phase2_generate_operations c2Phase1 c2Analysis c2LlmB ∧
    jobField (submit_model_analysis c2wStore "job-1" c2Analysis c2LlmB).1 "job-1"
      "status" = .str "pending" ∧
    jobField (submit_model_analysis c2wStore "job-1" c2Analysis c2LlmB).1 "job-1"
      "phase" = .str "ready_for_execution" :=
  C2_amended_no_phase_precondition c2wStore "job-1" c2wFields c2Phase1 c2Analysis c2LlmB
    (by rfl) (by rfl)

theorem obj_get_dictSet_ne (fields : List (String × JVal)) (k k' : String) (x dflt : JVal)
    (h : k' ≠ k) : (JVal.obj (dictSet fields k x)).get k' dflt = (JVal.obj fields).get k' dflt := by
  simp [JVal.get, dictFind_dictSet_ne _ _ _ _ h]

theorem obj_get_dictSet_self (fields : List (String × JVal)) (k : String) (x dflt : JVal) :
    (JVal.obj (dictSet fields k x)).get k dflt = x := by
  simp [JVal.get, dictFind_dictSet_self]

/-- Claim C10: the completion endpoint enforces no phase precondition — for
every job id present in the store, whatever the job's current status and
phase, complete_job stores the output file path and unconditionally sets
the job's status and phase to completed, answering success; only an unknown
job id is rejected, with a Job-not-found error result (the endpoint is a
total function of the store — no exception). -/
theorem C10_complete_unconditional (jobs : Store) (job_id : String) :
    (dictFind jobs job_id = none →
      complete_job jobs job_id = (jobs, .obj [("error", .str "Job not found")])) ∧
    ∀ fields : List (String × JVal), dictFind jobs job_id = some (.obj fields) →
      (complete_job jobs job_id).2 = .obj [("status", .str "success")] ∧
      jobField (complete_job jobs job_id).1 job_id "status" = .str "completed" ∧
      jobField (complete_job jobs job_id).1 job_id "phase" = .str "completed" ∧
      jobField (complete_job jobs job_id).1 job_id "output_file"
        = .str ("jobs/" ++ job_id ++ "/output.f3d") := by
  constructor
  · intro h
    simp only [complete_job, h]
  · intro fields hf
    have hstore : dictFind (complete_job jobs job_id).1 job_id
        = some (JVal.obj (dictSet (dictSet (dictSet fields "status" (.str "completed"))
            "output_file" (.str ("jobs/" ++ job_id ++ "/output.f3d")))
            "phase" (.str "completed"))) := by
      simp only [complete_job, hf, JVal.set, dictFind_dictSet_self]
    refine ⟨by simp only [complete_job, hf], ?_, ?_, ?_⟩
    · rw [jobField, hstore]
      show (JVal.obj (dictSet (dictSet (dictSet fields "status" (.str "completed"))
        "output_file" (.str ("jobs/" ++ job_id ++ "/output.f3d")))
        "phase" (.str "completed"))).get "status" JVal.null = JVal.str "completed"
      rw [obj_get_dictSet_ne _ _ _ _ _ (by decide), obj_get_dictSet_ne _ _ _ _ _ (by decide),
        obj_get_dictSet_self]
    · rw [jobField, hstore]
      exact obj_get_dictSet_self _ _ _ _
    · rw [jobField, hstore]
      show (JVal.obj (dictSet (dictSet (dictSet fields "status" (.str "completed"))
        "output_file" (.str ("jobs/" ++ job_id ++ "/output.f3d")))
        "phase" (.str "completed"))).get "output_file" JVal.null
        = JVal.str ("jobs/" ++ job_id ++ "/output.f3d")
      rw [obj_get_dictSet_ne _ _ _ _ _ (by decide), obj_get_dictSet_self]

/-- A store holding one failed-at-creation job, for the C10 witness. -/
def c10Fields : List (String × JVal) :=
  [("status", .str "failed"), ("error", .str "Nvidia API key not configured"),
    ("text_command", .str "reduce weight"), ("input_file", .str "jobs/job-1/input.f3d"),
    ("created_at", .str "t0")]

def c10Store : Store := [("job-1", .obj c10Fields)]

/-- Witness for C10: completing a job that sits in the failed phase is
accepted and completes it; an unknown id gets the error result. -/
theorem C10_witness :
    complete_job c10Store "missing" = (c10Store, .obj [("error", .str "Job not found")]) ∧
    ((complete_job c10Store "job-1").2 = .obj [("status", .str "success")] ∧
      jobField (complete_job c10Store "job-1").1 "job-1" "status" = .str "completed" ∧
      jobField (complete_job c10Store "job-1").1 "job-1" "phase" = .str "completed" ∧
      jobField (complete_job c10Store "job-1").1 "job-1" "output_file"
        = .str ("jobs/" ++ "job-1" ++ "/output.f3d")) :=
  ⟨(C10_complete_unconditional c10Store "missing").1 (by rfl),
    (C10_complete_unconditional c10Store "job-1").2 c10Fields (by rfl)⟩

/-! ## Job lifecycle as an event system (claim C7) -/

/-- One backend request; the LLM-bearing requests carry the parsed replies
of their LLM calls as data, the collaborator being external. -/
inductive Event : Type where
  | submitJob (job_id text_command created_at : String) (phase1 phase2llm : JVal)
  | submitAnalysis (job_id : String) (analysis llm : JVal)
  | completeJob (job_id : String)
  | retryFailed (job_id : String) (execution_results llm : JVal)

/-- The store after serving one request. -/
def applyEvent (jobs : Store) : Event → Store
  | .submitJob id cmd ts p1 p2 => (submit_job jobs id cmd ts p1 p2).1
  | .submitAnalysis id a llm => (submit_model_analysis jobs id a llm).1
  | .completeJob id => (complete_job jobs id).1
  | .retryFailed id res llm => (retry_failed_endpoint jobs id res llm).1

/-- The store after serving a request sequence. -/
def applyEvents (jobs : Store) : List Event → Store
  | [] => jobs
  | e :: es => applyEvents (applyEvent jobs e) es

/-- Whether an event is a fresh submission reusing the given id (job ids
are fresh UUIDs in the source, so no replay reuses an id). -/
def isSubmitWithId (e : Event) (job_id : String) : Bool :=
  match e with
  | .submitJob id _ _ _ _ => id == job_id
  | _ => false

/-- A job parked failed at creation, as an invariant over the store: every
entry under its id is a dict without a design intent whose status is
neither pending_analysis nor pending.  Stated over every entry so that it
is preserved by each endpoint update. -/
def failedAbsorbed (jobs : Store) (job_id : String) : Prop :=
  ∀ kv ∈ jobs, kv.1 = job_id →
    ∃ fields : List (String × JVal), kv.2 = JVal.obj fields ∧
      dictFind fields "design_intent" = none ∧
      jeqStr ((JVal.obj fields).get "status" .null) "pending_analysis" = false ∧
      jeqStr ((JVal.obj fields).get "status" .null) "pending" = false

theorem failedAbsorbed_dictSet (jobs : Store) (job_id id2 : String) (x : JVal)
    (hP : failedAbsorbed jobs job_id) (hne : id2 ≠ job_id) :
    failedAbsorbed (dictSet jobs id2 x) job_id := by
  intro kv hkv hkey
  rcases mem_dictSet _ _ _ _ hkv with hm | hm
  · exact hP kv hm hkey
  · rw [hm] at hkey
    exact absurd hkey hne

theorem failedAbsorbed_dictSet_self (jobs : Store) (job_id : String) (x : JVal)
    (hP : failedAbsorbed jobs job_id)
    (hx : ∃ fields : List (String × JVal), x = JVal.obj fields ∧
      dictFind fields "design_intent" = none ∧
      jeqStr ((JVal.obj fields).get "status" .null) "pending_analysis" = false ∧
      jeqStr ((JVal.obj fields).get "status" .null) "pending" = false) :
    failedAbsorbed (dictSet jobs job_id x) job_id := by
  intro kv hkv hkey
  rcases mem_dictSet _ _ _ _ hkv with hm | hm
  · exact hP kv hm hkey
  · rw [hm]
    exact hx

/-- Every endpoint preserves the failed-at-creation invariant of a job, as
long as no fresh submission reuses its id: a model-analysis submission for
such a job stores the analysis and then escapes on the missing design
intent before touching status, completion moves it to completed, and the
retry endpoint touches only the retry fields. -/
theorem failedAbsorbed_applyEvent (jobs : Store) (job_id : String) (e : Event)
    (hP : failedAbsorbed jobs job_id) (he : isSubmitWithId e job_id = false) :
    failedAbsorbed (applyEvent jobs e) job_id := by
  cases e with
  | submitJob id2 cmd ts p1 p2 =>
    have hne : id2 ≠ job_id := by simpa [isSubmitWithId] using he
    by_cases hp : p1.hasKey "error"
    · simp only [applyEvent, submit_job, hp, if_true]
      exact failedAbsorbed_dictSet _ _ _ _ hP hne
    · simp only [applyEvent, submit_job, hp, Bool.false_eq_true, if_false]
      exact failedAbsorbed_dictSet _ _ _ _ hP hne
  | submitAnalysis id2 a llm =>
    by_cases hid : id2 = job_id
    · subst hid
      cases hfind : dictFind jobs id2 with
      | none => simpa only [applyEvent, submit_model_analysis, hfind] using hP
      | some job =>
        obtain ⟨fields, hobj, hdi, hs1, hs2⟩ := hP (id2, job) (dictFind_mem _ _ _ hfind) rfl
        simp only at hobj
        subst hobj
        have hdi1 : dictFind (dictSet fields "model_analysis" a) "design_intent" = none := by
          rw [dictFind_dictSet_ne _ _ _ _ (by decide)]
          exact hdi
        simp only [applyEvent, submit_model_analysis, hfind, JVal.set, hdi1]
        refine failedAbsorbed_dictSet_self _ _ _ hP
          ⟨dictSet fields "model_analysis" a, rfl, hdi1, ?_, ?_⟩
        · rw [obj_get_dictSet_ne _ _ _ _ _ (by decide)]
          exact hs1
        · rw [obj_get_dictSet_ne _ _ _ _ _ (by decide)]
          exact hs2
    · cases hfind : dictFind jobs id2 with
      | none => simpa only [applyEvent, submit_model_analysis, hfind] using hP
      | some job =>
        cases hj : JVal.set job "model_analysis" a with
        | obj fields1 =>
          cases hdi2 : dictFind fields1 "design_intent" with
          | none =>
            simp only [applyEvent, submit_model_analysis, hfind, hj, hdi2]
            exact failedAbsorbed_dictSet _ _ _ _ hP hid
          | some di =>
            simp only [applyEvent, submit_model_analysis, hfind, hj, hdi2]
            exact failedAbsorbed_dictSet _ _ _ _ hP hid
        | null =>
          simp only [applyEvent, submit_model_analysis, hfind, hj]
          exact failedAbsorbed_dictSet _ _ _ _ hP hid
        | bool b =>
          simp only [applyEvent, submit_model_analysis, hfind, hj]
          exact failedAbsorbed_dictSet _ _ _ _ hP hid
        | num n =>
          simp only [applyEvent, submit_model_analysis, hfind, hj]
          exact failedAbsorbed_dictSet _ _ _ _ hP hid
        | str s =>
          simp only [applyEvent, submit_model_analysis, hfind, hj]
          exact failedAbsorbed_dictSet _ _ _ _ hP hid
        | arr elems =>
          simp only [applyEvent, submit_model_analysis, hfind, hj]
          exact failedAbsorbed_dictSet _ _ _ _ hP hid
  | completeJob id2 =>
    by_cases hid : id2 = job_id
    · subst hid
      cases hfind : dictFind jobs id2 with
      | none => simpa only [applyEvent, complete_job, hfind] using hP
      | some job =>
        obtain ⟨fields, hobj, hdi, hs1, hs2⟩ := hP (id2, job) (dictFind_mem _ _ _ hfind) rfl
        simp only at hobj
        subst hobj
        simp only [applyEvent, complete_job, hfind, JVal.set]
        refine failedAbsorbed_dictSet_self _ _ _ hP
          ⟨dictSet (dictSet (dictSet fields "status" (.str "completed")) "output_file"
            (.str ("jobs/" ++ id2 ++ "/output.f3d"))) "phase" (.str "completed"),
            rfl, ?_, ?_, ?_⟩
        · rw [dictFind_dictSet_ne _ _ _ _ (by decide), dictFind_dictSet_ne _ _ _ _ (by decide),
            dictFind_dictSet_ne _ _ _ _ (by decide)]
          exact hdi
        · rw [obj_get_dictSet_ne _ _ _ _ _ (by decide), obj_get_dictSet_ne _ _ _ _ _ (by decide),
            obj_get_dictSet_self]
          decide
        · rw [obj_get_dictSet_ne _ _ _ _ _ (by decide), obj_get_dictSet_ne _ _ _ _ _ (by decide),
            obj_get_dictSet_self]
          decide
    · cases hfind : dictFind jobs id2 with
      | none => simpa only [applyEvent, complete_job, hfind] using hP
      | some job =>
        simp only [applyEvent, complete_job, hfind]
        exact failedAbsorbed_dictSet _ _ _ _ hP hid
  | retryFailed id2 req llm =>
    by_cases hid : id2 = job_id
    · subst hid
      cases hfind : dictFind jobs id2 with
      | none => simpa only [applyEvent, retry_failed_endpoint, hfind] using hP
      | some job =>
        obtain ⟨fields, hobj, hdi, hs1, hs2⟩ := hP (id2, job) (dictFind_mem _ _ _ hfind) rfl
        simp only at hobj
        subst hobj
        cases hre : (jarrOf (req.get "execution_results" (JVal.arr []))).isEmpty with
        | true =>
          simpa only [applyEvent, retry_failed_endpoint, hfind, hre, if_true] using hP
        | false =>
          simp only [applyEvent, retry_failed_endpoint, hfind, hre, Bool.false_eq_true,
            if_false, JVal.set]
          refine failedAbsorbed_dictSet_self _ _ _ hP
            ⟨dictSet (dictSet fields "retry_operations"
              (phase3_retry_failed_operations (jarrOf (req.get "execution_results" (.arr [])))
                llm)) "phase" (.str "retry_ready"), rfl, ?_, ?_, ?_⟩
          · rw [dictFind_dictSet_ne _ _ _ _ (by decide), dictFind_dictSet_ne _ _ _ _ (by decide)]
            exact hdi
          · rw [obj_get_dictSet_ne _ _ _ _ _ (by decide), obj_get_dictSet_ne _ _ _ _ _ (by decide)]
            exact hs1
          · rw [obj_get_dictSet_ne _ _ _ _ _ (by decide), obj_get_dictSet_ne _ _ _ _ _ (by decide)]
            exact hs2
    · cases hfind : dictFind jobs id2 with
      | none => simpa only [applyEvent, retry_failed_endpoint, hfind] using hP
      | some job =>
        cases hre : (jarrOf (req.get "execution_results" (JVal.arr []))).isEmpty with
        | true =>
          simpa only [applyEvent, retry_failed_endpoint, hfind, hre, if_true] using hP
        | false =>
          simp only [applyEvent, retry_failed_endpoint, hfind, hre, Bool.false_eq_true, if_false]
          exact failedAbsorbed_dictSet _ _ _ _ hP hid

/-- The invariant survives any request sequence that never reuses the id. -/
theorem failedAbsorbed_applyEvents (jobs : Store) (job_id : String) :
    ∀ events : List Event, failedAbsorbed jobs job_id →
      (∀ e ∈ events, isSubmitWithId e job_id = false) →
      failedAbsorbed (applyEvents jobs events) job_id
  | [], hP, _ => hP
  | e :: es, hP, hall => by
    rw [applyEvents]
    exact failedAbsorbed_applyEvents _ job_id es
      (failedAbsorbed_applyEvent jobs job_id e hP (hall e (List.mem_cons_self e es)))
      (fun d hd => hall d (List.mem_cons_of_mem _ hd))

theorem dictFind_eq_none_of_keys {α : Type} :
    ∀ (l : List (String × α)) (k : String), (∀ kv ∈ l, kv.1 ≠ k) → dictFind l k = none
  | [], _, _ => rfl
  | (k1, v) :: rest, k, h => by
    have h1 : k1 ≠ k := h (k1, v) (List.mem_cons_self _ _)
    rw [dictFind, if_neg h1]
    exact dictFind_eq_none_of_keys rest k fun kv hkv => h kv (List.mem_cons_of_mem _ hkv)

/-- A job satisfying the failed-at-creation invariant appears in neither
poll view. -/
theorem poll_excludes (jobs : Store) (job_id : String) (h : failedAbsorbed jobs job_id) :
    ((poll_jobs jobs).get "awaiting_analysis" (.obj [])).hasKey job_id = false ∧
    ((poll_jobs jobs).get "ready_for_execution" (.obj [])).hasKey job_id = false := by
  have hview : ∀ s : String,
      (∀ kv ∈ jobs, kv.1 = job_id → jeqStr (kv.2.get "status" .null) s = false) →
      ∀ f : JVal → JVal,
      dictFind ((jobs.filter fun kv => jeqStr (kv.2.get "status" .null) s).map
        fun kv => (kv.1, f kv.2)) job_id = none := by
    intro s hs f
    apply dictFind_eq_none_of_keys
    intro kv hkv
    obtain ⟨orig, horig, heq⟩ := List.mem_map.mp hkv
    intro hbad
    have hmemjobs := List.mem_of_mem_filter horig
    have hstatus := List.of_mem_filter horig
    rw [← heq] at hbad
    simp only at hbad
    rw [hs orig hmemjobs hbad] at hstatus
    exact Bool.false_ne_true hstatus
  have hcond : ∀ target : String, target = "pending_analysis" ∨ target = "pending" →
      ∀ kv ∈ jobs, kv.1 = job_id → jeqStr (kv.2.get "status" .null) target = false := by
    intro target htarget kv hkv hkey
    obtain ⟨fields, hobj, _, hs1, hs2⟩ := h kv hkv hkey
    rw [hobj]
    rcases htarget with ht | ht <;> rw [ht]
    · exact hs1
    · exact hs2
  constructor
  · show (JVal.obj ((jobs.filter fun kv => jeqStr (kv.2.get "status" .null) "pending_analysis").map
      fun kv => (kv.1, pollAwaitingView kv.2))).hasKey job_id = false
    simp only [JVal.hasKey, hview "pending_analysis" (hcond _ (Or.inl rfl)) pollAwaitingView,
      Option.isSome_none]
  · show (JVal.obj ((jobs.filter fun kv => jeqStr (kv.2.get "status" .null) "pending").map
      fun kv => (kv.1, pollReadyView kv.2))).hasKey job_id = false
    simp only [JVal.hasKey, hview "pending" (hcond _ (Or.inr rfl)) pollReadyView,
      Option.isSome_none]

/-- Claim C7: for every submission, the created job lands in exactly one of
two states, decided by whether Phase 1 reported an error.  Without a
Phase-1 error the job is in pending_analysis with its (non-null) intent
stored, whatever the Phase-2 reply was — a Phase-2 error or empty operation
list never fails the job.  With a Phase-1 error the job is parked failed
with the error detail stored, and after any further request sequence that
does not reuse its id, it appears in neither the awaiting-analysis nor the
ready-for-execution view of a poll. -/
theorem C7_submit_dichotomy_poll_exclusion (jobs0 : Store)
    (job_id text_command created_at : String) (phase1 phase2llm : JVal)
    (hfresh : ∀ kv ∈ jobs0, kv.1 ≠ job_id) :
    (phase1.hasKey "error" = false →
      jobField (submit_job jobs0 job_id text_command created_at phase1 phase2llm).1
        job_id "status" = .str "pending_analysis" ∧
      jobField (submit_job jobs0 job_id text_command created_at phase1 phase2llm).1
        job_id "design_intent" = phase1) ∧
    (phase1.hasKey "error" = true →
      jobField (submit_job jobs0 job_id text_command created_at phase1 phase2llm).1
        job_id "status" = .str "failed" ∧
      jobField (submit_job jobs0 job_id text_command created_at phase1 phase2llm).1
        job_id "error" = phase1.get "error" .null ∧
      ∀ events : List Event, (∀ e ∈ events, isSubmitWithId e job_id = false) →
        ((poll_jobs (applyEvents
            (submit_job jobs0 job_id text_command created_at phase1 phase2llm).1 events)).get
          "awaiting_analysis" (.obj [])).hasKey job_id = false ∧
        ((poll_jobs (applyEvents
            (submit_job jobs0 job_id text_command created_at phase1 phase2llm).1 events)).get
          "ready_for_execution" (.obj [])).hasKey job_id = false) := by
  constructor
  · intro hp
    have hstore : dictFind
        (submit_job jobs0 job_id text_command created_at phase1 phase2llm).1 job_id
        = some (JVal.obj [("status", .str "pending_analysis"),
            ("text_command", .str text_command), ("design_intent", phase1),
            ("preliminary_operations", phase2_generate_operations phase1 .null phase2llm),
            ("model_analysis", .null), ("final_operations", .null),
            ("input_file", .str ("jobs/" ++ job_id ++ "/input.f3d")), ("output_file", .null),
            ("created_at", .str created_at), ("phase", .str "awaiting_model_analysis")]) := by
      simp only [submit_job, hp, Bool.false_eq_true, if_false, dictFind_dictSet_self]
    rw [jobField, jobField, hstore]
    exact ⟨rfl, rfl⟩
  · intro hp
    have hstore : dictFind
        (submit_job jobs0 job_id text_command created_at phase1 phase2llm).1 job_id
        = some (JVal.obj [("status", .str "failed"), ("error", phase1.get "error" .null),
            ("text_command", .str text_command),
            ("input_file", .str ("jobs/" ++ job_id ++ "/input.f3d")),
            ("created_at", .str created_at)]) := by
      simp only [submit_job, hp, if_true, dictFind_dictSet_self]
    refine ⟨by rw [jobField, hstore]; rfl, by rw [jobField, hstore]; rfl, ?_⟩
    intro events hev
    have habs : failedAbsorbed
        (submit_job jobs0 job_id text_command created_at phase1 phase2llm).1 job_id := by
      intro kv hkv hkey
      have hset : (submit_job jobs0 job_id text_command created_at phase1 phase2llm).1
          = dictSet jobs0 job_id (JVal.obj [("status", .str "failed"),
              ("error", phase1.get "error" .null), ("text_command", .str text_command),
              ("input_file", .str ("jobs/" ++ job_id ++ "/input.f3d")),
              ("created_at", .str created_at)]) := by
        simp only [submit_job, hp, if_true]
      rw [hset] at hkv
      rcases mem_dictSet _ _ _ _ hkv with hm | hm
      · exact absurd hkey (hfresh kv hm)
      · rw [hm]
        exact ⟨_, rfl, rfl, rfl, rfl⟩
    exact poll_excludes _ _ (failedAbsorbed_applyEvents _ _ events habs hev)

/-- A failed Phase-1 reply, as call_nemotron returns on a transport or
configuration error. -/
def c7Phase1Err : JVal :=
  .obj [("error", .str "Nvidia API key not configured"), ("raw_text", .str "reduce weight")]

/-- A request sequence poking the failed job through every other endpoint,
plus an unrelated fresh submission. -/
def c7Events : List Event :=
  [Event.completeJob "job-f",
   Event.submitAnalysis "job-f" (.obj [("current_mass", .num "50")]) (.obj [("operations", .arr [])]),
   Event.retryFailed "job-f" (.obj [("execution_results", .arr [c1FailedResult])]) c1Llm,
   Event.submitJob "job-2" "another job" "t1" c2Phase1 c2LlmA]

/-- Witness for C7: a concrete failed-at-creation job stays out of both
poll views across a concrete request sequence. -/
theorem C7_witness :
    jobField (submit_job [] "job-f" "reduce weight" "t0" c7Phase1Err c2LlmA).1
      "job-f" "status" = .str "failed" ∧
    jobField (submit_job [] "job-f" "reduce weight" "t0" c7Phase1Err c2LlmA).1
      "job-f" "error" = c7Phase1Err.get "error" .null ∧
    ((poll_jobs (applyEvents (submit_job [] "job-f" "reduce weight" "t0" c7Phase1Err c2LlmA).1
        c7Events)).get "awaiting_analysis" (.obj [])).hasKey "job-f" = false ∧
    ((poll_jobs (applyEvents (submit_job [] "job-f" "reduce weight" "t0" c7Phase1Err c2LlmA).1
        c7Events)).get "ready_for_execution" (.obj [])).hasKey "job-f" = false := by
  have h := (C7_submit_dichotomy_poll_exclusion [] "job-f" "reduce weight" "t0" c7Phase1Err
    c2LlmA (fun kv hkv => absurd hkv (List.not_mem_nil kv))).2 (by rfl)
  have hpoll := h.2.2 c7Events (by decide)
  exact ⟨h.1, h.2.1, hpoll.1, hpoll.2⟩

/-! ## Executor loops (claim C3) -/

/-- Outcome contract of one OperationExecutor call: a success flag with a
message on success or an error text on failure (established for both
executors by the C9 development below). -/
structure ExecRes : Type where
  success : Bool
  message : String
  error : String

/-- The result-collection loop of _do_execution
(fusion_AddIn/InteliCAD.py lines 332-352): every operation is passed to the
executor in declared list order, one tracking entry is appended per
operation, and a failure is only logged and counted — nothing halts the
loop.  `execu` abstracts the stateful executor, indexed by loop position
since each operation mutates the live document. -/
def do_execution_loop (execu : Nat → JVal → ExecRes) : Nat → List JVal → List JVal
  | _, [] => []
  | i, op :: rest =>
    let result := execu i op
    JVal.obj [("operation", op), ("success", .bool result.success),
      ("error", .str (if result.success then "" else result.error)),
      ("message", .str (if result.success then result.message else ""))] ::
      do_execution_loop execu (i + 1) rest

/-- The retry loop of _do_execution (fusion_AddIn/InteliCAD.py lines
374-387): every retry operation is attempted in order under the same
policy; only successes are counted. -/
def do_execution_retry_loop (execu : Nat → JVal → ExecRes) : Nat → List JVal → List Bool
  | _, [] => []
  | i, op :: rest => (execu i op).success :: do_execution_retry_loop execu (i + 1) rest

/-- The execution loop of process_execution_job (InteliCAD.py lines
198-206): results are appended in order, but the loop breaks at the first
failed operation, so later operations are never attempted. -/
def process_execution_loop (execu : Nat → JVal → ExecRes) : Nat → List JVal → List ExecRes
  | _, [] => []
  | i, op :: rest =>
    let result := execu i op
    if result.success then result :: process_execution_loop execu (i + 1) rest
    else [result]

/-- An executor against a model with no solid body: every operation
fails. -/
def c3AlwaysFail : Nat → JVal → ExecRes :=
  fun _ _ => ⟨false, "", "No solid body found to shell"⟩

def c3Ops : List JVal :=
  [.obj [("type", .str "shell_body"), ("params", .obj [("wall_thickness", .num "6.0")])],
    .obj [("type", .str "add_ribs"), ("params", .obj [("thickness", .num "2.0")])]]

/-- Counterexample to claim C3: on a two-operation plan whose first
operation fails, the legacy executor loop of src/InteliCAD.py collects one
result and never attempts the second operation, while the fusion_AddIn loop
attempts both. -/
theorem C3_counterexample :
    (process_execution_loop c3AlwaysFail 0 c3Ops).length = 1 ∧
    c3Ops.length = 2 ∧
    (do_execution_loop c3AlwaysFail 0 c3Ops).length = 2 :=
  ⟨rfl, rfl, rfl⟩

theorem do_execution_loop_ops (execu : Nat → JVal → ExecRes) :
    ∀ (i : Nat) (ops : List JVal),
      (do_execution_loop execu i ops).map (fun entry => entry.get "operation" .null) = ops
  | _, [] => rfl
  | i, op :: rest => by
    show (JVal.obj [("operation", op), ("success", .bool (execu i op).success),
        ("error", .str (if (execu i op).success then "" else (execu i op).error)),
        ("message", .str (if (execu i op).success then (execu i op).message else ""))]).get
          "operation" JVal.null ::
        (do_execution_loop execu (i + 1) rest).map (fun entry => entry.get "operation" .null)
      = op :: rest
    rw [do_execution_loop_ops execu (i + 1) rest]
    rfl

theorem do_execution_retry_loop_length (execu : Nat → JVal → ExecRes) :
    ∀ (i : Nat) (ops : List JVal), (do_execution_retry_loop execu i ops).length = ops.length
  | _, [] => rfl
  | i, op :: rest => by
    show (do_execution_retry_loop execu (i + 1) rest).length + 1 = rest.length + 1
    rw [do_execution_retry_loop_length execu (i + 1) rest]

/-- Claim C3 amended: the fusion_AddIn poll-loop executor (_do_execution)
attempts every operation of the dispatched plan in declared order and
collects exactly one tracking entry per operation, carrying that operation
— whatever the executor outcomes, so an earlier failure never prevents a
later operation from being attempted; retry operations, when returned, are
all attempted under the same no-early-stop policy.  The legacy executor in
src/InteliCAD.py instead stops at the first failed operation (see the
counterexample). -/
theorem C3_amended_full_pass (execu : Nat → JVal → ExecRes) (ops : List JVal) :
    (do_execution_loop execu 0 ops).map (fun entry => entry.get "operation" .null) = ops ∧
    (do_execution_loop execu 0 ops).length = ops.length ∧
    ∀ (execu2 : Nat → JVal → ExecRes) (retry_ops : List JVal),
      (do_execution_retry_loop execu2 0 retry_ops).length = retry_ops.length := by
  refine ⟨do_execution_loop_ops execu 0 ops, ?_, fun execu2 retry_ops =>
    do_execution_retry_loop_length execu2 0 retry_ops⟩
  have h2 := congrArg List.length (do_execution_loop_ops execu 0 ops)
  rwa [List.length_map] at h2

/-! ## Operation executors (claim C9) -/

/-- Outcome of one concrete handler body (the CAD-kernel-touching code,
an external collaborator): a returned message, or a raised exception with
its text and formatted traceback. -/
inductive HandlerOutcome : Type where
  | ok (message : String)
  | raised (error tb : String)

/-- The handler table of OperationExecutor.execute
(fusion_AddIn/operation_executor.py lines 23-44): operation-type string to
handler method. -/
def fusionHandlers : List (String × String) :=
  [("scale", "_scale"), ("shell_body", "_shell"), ("fillet", "_fillet"),
    ("fillet_edges", "_fillet"), ("fillet_all_edges", "_fillet"), ("mirror", "_mirror"),
    ("rotate", "_rotate"), ("move", "_move"), ("add_ribs", "_add_ribs"),
    ("pattern", "_pattern"), ("topology_optimization", "_topology_opt"),
    ("run_topology_optimization", "_topology_opt"), ("lattice_infill", "_lattice"),
    ("variable_wall_thickness", "_variable_thickness"),
    ("variable_thickness", "_variable_thickness"),
    ("apply_draft_angles", "_draft_angles"), ("draft_angles", "_draft_angles"),
    ("add_ventilation", "_ventilation"), ("ventilation", "_ventilation"),
    ("strategic_holes", "_strategic_holes")]

/-- The handler table of OperationExecutor.execute_operation
(operation_executor.py lines 30-47). -/
def rootHandlers : List (String × String) :=
  [("scale", "execute_scale"), ("shell_body", "execute_shell"),
    ("add_ribs", "execute_add_ribs"), ("fillet", "execute_fillet"),
    ("fillet_edges", "execute_fillet"), ("mirror", "execute_mirror"),
    ("rotate", "execute_rotate"), ("move", "execute_move"), ("pattern", "execute_pattern"),
    ("extrude", "execute_extrude"), ("lattice_infill", "execute_lattice"),
    ("topology_optimization", "execute_topology_opt"),
    ("variable_wall_thickness", "execute_variable_thickness"),
    ("add_gussets", "execute_add_gussets"),
    ("apply_draft_angles", "execute_draft_angles"),
    ("add_ventilation", "execute_ventilation")]

/-- Python handlers.get(op_type) on a string-keyed table: only a string key
can hit an entry; other hashable scalars silently miss (array and dict keys
raise before the lookup and are handled at each call site). -/
def handlerKeyLookup (table : List (String × String)) (t : JVal) : Option String :=
  match t with
  | .str s => dictFind table s
  | _ => none

/-- Python str() of the scalar values that can reach the message
interpolations (a numeric literal prints as its source text; arrays and
dicts never reach an interpolation, the unhashable-key TypeError firing
first). -/
def pyStr : JVal → String
  | .null => "None"
  | .bool true => "True"
  | .bool false => "False"
  | .num lit => lit
  | .str s => s
  | .arr _ => ""
  | .obj _ => ""

/-- OperationExecutor.execute (fusion_AddIn/operation_executor.py lines
18-61), with `handler` giving each handler body's outcome on the given
params against the live design.  The result is `none` when an exception
escapes the method: the lookup handlers.get(op_type) sits outside the try
block, so an unhashable type value (a JSON array or object) raises
TypeError out of execute; every other path returns a result dict. -/
def fusionExecute (handler : String → JVal → HandlerOutcome) (operation : JVal) :
    Option JVal :=
  let op_type := operation.get "type" (.str "")
  let params := operation.get "params" (.obj [])
  match op_type with
  | .arr _ => none
  | .obj _ => none
  | t =>
    match handlerKeyLookup fusionHandlers t with
    | none => some (.obj [("success", .bool false),
        ("error", .str ("Operation '" ++ pyStr t ++ "' not yet implemented"))])
    | some hname =>
      match handler hname params with
      | .ok m => some (.obj [("success", .bool true), ("message", .str m)])
      | .raised err tb => some (.obj [("success", .bool false), ("error", .str err),
          ("traceback", .str tb)])

/-- OperationExecutor.execute_operation (operation_executor.py lines
20-72): the whole dispatch sits inside the try block, so even the TypeError
from an unhashable type value is caught and converted into a failure dict
(its formatted traceback text is abstracted to the empty string; no
property here inspects it). -/
def rootExecuteOperation (handler : String → JVal → HandlerOutcome) (operation : JVal) : JVal :=
  let op_type := operation.get "type" .null
  let params := operation.get "params" (.obj [])
  match op_type with
  | .arr _ => .obj [("success", .bool false), ("operation", op_type),
      ("error", .str "unhashable type: 'list'"), ("traceback", .str "")]
  | .obj _ => .obj [("success", .bool false), ("operation", op_type),
      ("error", .str "unhashable type: 'dict'"), ("traceback", .str "")]
  | t =>
    match handlerKeyLookup rootHandlers t with
    | some hname =>
      match handler hname params with
      | .ok m => .obj [("success", .bool true), ("operation", op_type), ("result", .str m)]
      | .raised err tb => .obj [("success", .bool false), ("operation", op_type),
          ("error", .str err), ("traceback", .str tb)]
    | none => .obj [("success", .bool false), ("operation", op_type),
        ("error", .str ("Unknown operation type: " ++ pyStr t))]

/-- Counterexample to claim C9: an operation dict whose type value is a
JSON array makes the fusion executor's handlers.get raise TypeError out of
execute — no structured result is returned (the root executor, whose lookup
sits inside its try block, converts the same input into a failure dict). -/
theorem C9_counterexample :
    fusionExecute (fun _ _ => HandlerOutcome.ok "done") (.obj [("type", .arr [])]) = none ∧
    rootExecuteOperation (fun _ _ => HandlerOutcome.ok "done") (.obj [("type", .arr [])])
      = .obj [("success", .bool false), ("operation", .arr []),
          ("error", .str "unhashable type: 'list'"), ("traceback", .str "")] :=
  ⟨rfl, rfl⟩

/-- Claim C9 amended: for every operation dict whose type value is a string
(or absent — the modelled sources default it to a string), the fusion
executor's execute returns a structured success-flagged result and no
exception escapes: an unknown or placeholder type yields a failure result
with the descriptive not-yet-implemented message, a handler exception is
caught into a failure result carrying the error text, and a handler return
becomes a success result.  The root executor's execute_operation satisfies
the same contract for every operation dict whatsoever — unknown types get
the unknown-type message, handler exceptions are caught, and the result
always carries a boolean success flag. -/
theorem C9_amended_structured_results (handler : String → JVal → HandlerOutcome)
    (operation : JVal) :
    (∀ s : String, operation.get "type" (.str "") = .str s →
      (dictFind fusionHandlers s = none →
        fusionExecute handler operation = some (.obj [("success", .bool false),
          ("error", .str ("Operation '" ++ s ++ "' not yet implemented"))])) ∧
      (∀ hname m, dictFind fusionHandlers s = some hname →
        handler hname (operation.get "params" (.obj [])) = .ok m →
        fusionExecute handler operation
          = some (.obj [("success", .bool true), ("message", .str m)])) ∧
      (∀ hname err tb, dictFind fusionHandlers s = some hname →
        handler hname (operation.get "params" (.obj [])) = .raised err tb →
        fusionExecute handler operation = some (.obj [("success", .bool false),
          ("error", .str err), ("traceback", .str tb)]))) ∧
    (∀ s : String, operation.get "type" .null = .str s →
      (dictFind rootHandlers s = none →
        rootExecuteOperation handler operation = .obj [("success", .bool false),
          ("operation", .str s), ("error", .str ("Unknown operation type: " ++ s))]) ∧
      (∀ hname err tb, dictFind rootHandlers s = some hname →
        handler hname (operation.get "params" (.obj [])) = .raised err tb →
        rootExecuteOperation handler operation = .obj [("success", .bool false),
          ("operation", .str s), ("error", .str err), ("traceback", .str tb)])) ∧
    ((rootExecuteOperation handler operation).get "success" .null = .bool true ∨
      (rootExecuteOperation handler operation).get "success" .null = .bool false) := by
  refine ⟨fun s hs => ⟨?_, ?_, ?_⟩, fun s hs => ⟨?_, ?_⟩, ?_⟩
  · intro hnone
    simp only [fusionExecute, hs, handlerKeyLookup, hnone, pyStr]
  · intro hname m hfind hok
    simp only [fusionExecute, hs, handlerKeyLookup, hfind, hok]
  · intro hname err tb hfind hraise
    simp only [fusionExecute, hs, handlerKeyLookup, hfind, hraise]
  · intro hnone
    simp only [rootExecuteOperation, hs, handlerKeyLookup, hnone, pyStr]
  · intro hname err tb hfind hraise
    simp only [rootExecuteOperation, hs, handlerKeyLookup, hfind, hraise]
  · cases ht : operation.get "type" JVal.null with
    | arr xs =>
      right
      simp only [rootExecuteOperation, ht]
      rfl
    | obj kvs =>
      right
      simp only [rootExecuteOperation, ht]
      rfl
    | null =>
      simp only [rootExecuteOperation, ht, handlerKeyLookup]
      right
      rfl
    | bool b =>
      simp only [rootExecuteOperation, ht, handlerKeyLookup]
      right
      rfl
    | num lit =>
      simp only [rootExecuteOperation, ht, handlerKeyLookup]
      right
      rfl
    | str s =>
      simp only [rootExecuteOperation, ht, handlerKeyLookup]
      cases hk : dictFind rootHandlers s with
      | none =>
        simp only [hk]
        right
        rfl
      | some hname =>
        simp only [hk]
        cases ho : handler hname (operation.get "params" (.obj [])) with
        | ok m =>
          simp only [ho]
          left
          rfl
        | raised err tb =>
          simp only [ho]
          right
          rfl

/-- Witness for the amended C9: a vocabulary type with no handler in either
table (split_for_assembly) yields the descriptive failure results. -/
theorem C9_amended_witness :
    fusionExecute (fun _ _ => HandlerOutcome.ok "done")
        (.obj [("type", .str "split_for_assembly")])
      = some (.obj [("success", .bool false),
          ("error", .str "Operation 'split_for_assembly' not yet implemented")]) ∧
    rootExecuteOperation (fun _ _ => HandlerOutcome.ok "done")
        (.obj [("type", .str "split_for_assembly")])
      = .obj [("success", .bool false), ("operation", .str "split_for_assembly"),
          ("error", .str "Unknown operation type: split_for_assembly")] :=
  have h := C9_amended_structured_results (fun _ _ => HandlerOutcome.ok "done")
    (.obj [("type", .str "split_for_assembly")])
  ⟨(h.1 "split_for_assembly" rfl).1 rfl, (h.2.1 "split_for_assembly" rfl).1 rfl⟩

end InteliCAD
